import Mathlib

/-!
Verification of the ursadb command-dispatch and concurrency core.

Part A embeds the command executor and lock planner of
`src/libursa/Daemon.cpp`; Part B embeds the coordinator event loop of
`src/src/NetworkService.cpp` as an explicit transition system. External
collaborators (the command parser, `ConfigKey::parse`, the on-disk
snapshot operations) are modelled as parameters or, where the spec fixes
their behaviour, as definitions marked "Modelled from the spec".
-/

namespace Ursa

/-! ## Part A: data model of `Daemon.cpp` -/

/-- DbChangeType from the repository: the tags of the deferred mutation
records a Task accumulates. -/
inductive DbChangeType where
  | NewIterator
  | ConfigChange
  | ToggleTaint
  | Drop
  | NewDataset
deriving DecidableEq, Repr

/-- DBChange: a tagged deferred mutation appended to a Task
(`task->change(DBChange(type, target, parameter))`). -/
structure DBChange where
  type : DbChangeType
  target : String
  parameter : String := ""
deriving DecidableEq, Repr

/-- Task: an in-flight client request (monotonic id, client address bytes,
verbatim request, ordered DBChange list). -/
structure Task where
  id : Nat
  conn_id : String
  request : String
  changes : List DBChange
deriving DecidableEq, Repr

/-- Task.change appends one DBChange to the task's ordered change list. -/
def Task.change (t : Task) (c : DBChange) : Task :=
  { t with changes := t.changes ++ [c] }

/-- Fault: the C++ exception classes relevant to `dispatch_command_safe`:
`std::runtime_error` (with message), `std::bad_alloc`, and any other
uncaught fault. -/
inductive Fault where
  | runtimeError (msg : String)
  | badAlloc
  | other (tag : String)
deriving DecidableEq, Repr

/-- Response: the variants of the `Response` value object (§6 of the spec);
payloads are kept only as far as the verified claims inspect them. -/
inductive Response where
  | ok
  | error (msg : String)
  | select (files : List String)
  | select_iterator (iterator_id : String) (file_count : Nat)
  | select_from_iterator (files : List String) (pos : Nat) (total_files : Nat)
  | config (vals : List (String × Nat))
  | status (tasks : List String)
  | topology (datasets : List String)
  | ping (hex_conn_id : String)
deriving DecidableEq, Repr

/-- OnDiskDataset: immutable dataset with stable id, taints and file count
(indexes are not inspected by the verified claims). -/
structure OnDiskDataset where
  id : String
  taints : List String
  file_count : Nat
deriving DecidableEq, Repr

/-- DatabaseConfig: the configuration interface a snapshot exposes
(`snap->get_config()`) together with the external `ConfigKey::parse`.
`Key` is the abstract `ConfigKey` type; its code is outside the embedded
sources, so the interface is a parameter of the development. -/
structure DatabaseConfig (Key : Type) where
  parse : String → Option Key
  get : Key → Nat
  get_all : List (String × Nat)
  can_set : Key → Nat → Bool

/-- DatabaseSnapshot (executor view): the stable dataset list, the
effective configuration and the compaction candidate lists used by the
lock planner. -/
structure DatabaseSnapshot (Key : Type) where
  datasets : List OnDiskDataset
  config : DatabaseConfig Key
  compact_smart_candidates : List String
  compact_full_candidates : List String

/-- Modelled from the spec: `DatabaseSnapshot::find_dataset` is not among
the embedded sources; per the data model a Dataset is "identified by a
stable dataset_id", so lookup returns the first dataset whose id matches,
and none when the dataset does not exist. -/
def DatabaseSnapshot.find_dataset {Key : Type} (snap : DatabaseSnapshot Key)
    (dsid : String) : Option OnDiskDataset :=
  snap.datasets.find? (fun ds => ds.id == dsid)

/-- TaintMode: the two modes of the `taint` command. -/
inductive TaintMode where
  | Add
  | Remove
deriving DecidableEq, Repr

/-- TaintCommand: target dataset, tag, and mode. -/
structure TaintCommand where
  dataset : String
  taint : String
  mode : TaintMode
deriving DecidableEq, Repr

/-- ConfigGetCommand: the (possibly empty) list of requested key names. -/
structure ConfigGetCommand where
  keys : List String
deriving DecidableEq, Repr

/-- ConfigSetCommand: key name and the already-parsed numeric value. -/
structure ConfigSetCommand where
  key : String
  value : Nat
deriving DecidableEq, Repr

/-- IteratorPopCommand: iterator id and number of elements to pop. -/
structure IteratorPopCommand where
  iterator_id : String
  elements_to_pop : Nat
deriving DecidableEq, Repr

/-- ReindexCommand: the dataset to rebuild and the index types. -/
structure ReindexCommand where
  dataset_id : String
  index_types : List String
deriving DecidableEq, Repr

/-- CompactType: smart or full compaction. -/
inductive CompactType where
  | Smart
  | Full
deriving DecidableEq, Repr

/-- CompactCommand: which compaction flavour to run. -/
structure CompactCommand where
  type : CompactType
deriving DecidableEq, Repr

/-- SelectCommand: only the fields the lock planner and dispatcher can
see; query execution itself is an external collaborator. -/
structure SelectCommand where
  query : String
  iterator_requested : Bool
  taints : List String
  datasets : List String
deriving DecidableEq, Repr

/-- IndexCommand: paths to index, uniqueness mode, taints, index types. -/
structure IndexCommand where
  paths : List String
  ensure_unique : Bool
  taints : List String
  index_types : List String
deriving DecidableEq, Repr

/-- IndexFromCommand: like IndexCommand but reading the path list from a
file. -/
structure IndexFromCommand where
  path_list_fname : String
  ensure_unique : Bool
  taints : List String
  index_types : List String
deriving DecidableEq, Repr

/-- DatasetDropCommand: the dataset to drop. -/
structure DatasetDropCommand where
  dataset_id : String
deriving DecidableEq, Repr

/-- Command: the closed sum over command types dispatched by
`std::visit` in `dispatch_command` and `dispatch_locks`. -/
inductive Command where
  | select (cmd : SelectCommand)
  | iteratorPop (cmd : IteratorPopCommand)
  | index (cmd : IndexCommand)
  | indexFrom (cmd : IndexFromCommand)
  | configGet (cmd : ConfigGetCommand)
  | configSet (cmd : ConfigSetCommand)
  | reindex (cmd : ReindexCommand)
  | compact (cmd : CompactCommand)
  | status
  | topology
  | ping
  | taint (cmd : TaintCommand)
  | datasetDrop (cmd : DatasetDropCommand)
deriving DecidableEq, Repr

/-! ## Part A: command executors (`execute_command` overloads) -/

/-- Embeds `execute_command(const TaintCommand&, ...)`: missing dataset
throws a runtime error (before any change is recorded); otherwise a
`ToggleTaint` DBChange is appended exactly when the current taint state
differs from the requested one, and the response is `ok`. -/
def execute_command_taint {Key : Type} (cmd : TaintCommand) (task : Task)
    (snap : DatabaseSnapshot Key) : Except Fault Response × Task :=
  match snap.find_dataset cmd.dataset with
  | none => (Except.error (Fault.runtimeError "can't taint non-existent dataset"), task)
  | some ds =>
      let has_taint : Bool := ds.taints.contains cmd.taint
      let should_have_taint : Bool := cmd.mode == TaintMode.Add
      if has_taint != should_have_taint then
        (Except.ok Response.ok,
         task.change (DBChange.mk DbChangeType.ToggleTaint cmd.dataset cmd.taint))
      else
        (Except.ok Response.ok, task)

/-- Map insertion with overwrite, the behaviour of
`vals[keyname] = value` on the `std::unordered_map` built by
`execute_command(ConfigGetCommand)`. -/
def map_insert : List (String × Nat) → String → Nat → List (String × Nat)
  | [], k, v => [(k, v)]
  | p :: rest, k, v => if p.1 = k then (k, v) :: rest else p :: map_insert rest k v

/-- Map lookup on the association lists produced by `map_insert`. -/
def map_find : List (String × Nat) → String → Option Nat
  | [], _ => none
  | p :: rest, k => if p.1 = k then some p.2 else map_find rest k

/-- The key-resolution loop of `execute_command(ConfigGetCommand)`:
resolve each requested name through `ConfigKey::parse`, skipping names
that do not parse, and store the configured value under the name. -/
def config_get_loop {Key : Type} (cfg : DatabaseConfig Key)
    (keys : List String) (vals : List (String × Nat)) : List (String × Nat) :=
  keys.foldl (fun vals keyname =>
    match cfg.parse keyname with
    | some key => map_insert vals keyname (cfg.get key)
    | none => vals) vals

/-- Embeds `execute_command(const ConfigGetCommand&, ...)`: empty key list
returns all known pairs; otherwise each key name is resolved through
`ConfigKey::parse`, unknown names being skipped silently. -/
def execute_command_config_get {Key : Type} (cmd : ConfigGetCommand)
    (snap : DatabaseSnapshot Key) : Response :=
  if cmd.keys.isEmpty then
    Response.config snap.config.get_all
  else
    Response.config (config_get_loop snap.config cmd.keys [])

/-- Embeds `execute_command(const ConfigSetCommand&, ...)`: unknown key
name and out-of-range value yield `Response::error` with no DBChange;
otherwise one `ConfigChange` DBChange with the key and the decimal
rendering of the value (`std::to_string`) is appended and `ok` returned. -/
def execute_command_config_set {Key : Type} (cmd : ConfigSetCommand) (task : Task)
    (snap : DatabaseSnapshot Key) : Response × Task :=
  match snap.config.parse cmd.key with
  | none => (Response.error "Invalid key name specified", task)
  | some key =>
      if !(snap.config.can_set key cmd.value) then
        (Response.error "Value specified is out of range", task)
      else
        (Response.ok,
         task.change (DBChange.mk DbChangeType.ConfigChange cmd.key (Nat.repr cmd.value)))

/-- Embeds `dispatch_command_safe`: try `parse_command` then
`dispatch_command`; a `std::runtime_error` is caught and becomes
`Response::error(e.what())`, a `std::bad_alloc` is caught and becomes
`Response::error("out of memory")`, and any other fault propagates.
The external parser and the full dispatcher are parameters. -/
def dispatch_command_safe (parse : String → Except Fault Command)
    (dispatch : Command → Except Fault Response) (cmd_str : String) :
    Except Fault Response :=
  match (parse cmd_str).bind dispatch with
  | Except.ok r => Except.ok r
  | Except.error (Fault.runtimeError msg) => Except.ok (Response.error msg)
  | Except.error Fault.badAlloc => Except.ok (Response.error "out of memory")
  | Except.error f => Except.error f

/-! ## Part A: lock planner (`acquire_locks` overloads, `dispatch_locks`) -/

/-- DatabaseLock: either a dataset lock or an iterator lock, identified by
name. -/
inductive DatabaseLock where
  | DatasetLock (id : String)
  | IteratorLock (id : String)
deriving DecidableEq, Repr

/-- Embeds `acquire_locks(const IteratorPopCommand&, ...)`. -/
def acquire_locks_iterator_pop (cmd : IteratorPopCommand) : List DatabaseLock :=
  [DatabaseLock.IteratorLock cmd.iterator_id]

/-- Embeds `acquire_locks(const ReindexCommand&, ...)`. -/
def acquire_locks_reindex (cmd : ReindexCommand) : List DatabaseLock :=
  [DatabaseLock.DatasetLock cmd.dataset_id]

/-- Embeds `acquire_locks(const CompactCommand&, ...)`: one DatasetLock
per compaction candidate, smart or full per the command's type, in
candidate order. -/
def acquire_locks_compact {Key : Type} (cmd : CompactCommand)
    (snap : DatabaseSnapshot Key) : List DatabaseLock :=
  let to_lock := if cmd.type == CompactType.Smart then
    snap.compact_smart_candidates
  else
    snap.compact_full_candidates
  to_lock.map DatabaseLock.DatasetLock

/-- Embeds `acquire_locks(const TaintCommand&, ...)`. -/
def acquire_locks_taint (cmd : TaintCommand) : List DatabaseLock :=
  [DatabaseLock.DatasetLock cmd.dataset]

/-- Embeds the catch-all `acquire_locks` template: no locks. -/
def acquire_locks_default : List DatabaseLock := []

/-- Embeds `dispatch_locks`: `std::visit` over the command variant,
selecting the matching `acquire_locks` overload. -/
def dispatch_locks {Key : Type} (cmd : Command) (snap : DatabaseSnapshot Key) :
    List DatabaseLock :=
  match cmd with
  | Command.iteratorPop c => acquire_locks_iterator_pop c
  | Command.reindex c => acquire_locks_reindex c
  | Command.compact c => acquire_locks_compact c snap
  | Command.taint c => acquire_locks_taint c
  | _ => acquire_locks_default

/-! ## Part B: coordinator event loop (`NetworkService.cpp`)

Workers are indexed by their position in `CoordState.wctxs` (the C++
identities "0", "1", ... of the `wctxs` map). Each coordinator event —
one backend message or one frontend request — is handled atomically by
the single coordinator thread, so the loop is a step function from state
and event to state and emitted messages. -/

/-- NetLockResp: the coordinator's reply to a lock request. -/
inductive NetLockResp where
  | LockOk
  | LockDenied
deriving DecidableEq, Repr

/-- SnapLocks: the per-snapshot collection of locally-held locks.
Modelled from the spec: `DatabaseSnapshot::lock_dataset`,
`is_dataset_locked`, `lock_iterator` and `is_iterator_locked` are not
among the embedded sources; per the data model a Snapshot "carries its
own lock-acquisition record", a set of dataset names and iterator names,
empty on a freshly created snapshot. -/
structure SnapLocks where
  locked_datasets : List String
  locked_iterators : List String
deriving DecidableEq, Repr

/-- Modelled from the spec: `is_dataset_locked` tests membership in the
snapshot's lock record. -/
def is_dataset_locked (s : SnapLocks) (name : String) : Bool :=
  s.locked_datasets.contains name

/-- Modelled from the spec: `lock_dataset` records a dataset name in the
snapshot's lock record (a set, so recording is idempotent). -/
def lock_dataset (s : SnapLocks) (name : String) : SnapLocks :=
  if s.locked_datasets.contains name then s
  else { s with locked_datasets := s.locked_datasets ++ [name] }

/-- Modelled from the spec: `is_iterator_locked` tests membership in the
snapshot's lock record. -/
def is_iterator_locked (s : SnapLocks) (name : String) : Bool :=
  s.locked_iterators.contains name

/-- Modelled from the spec: `lock_iterator` records an iterator name in
the snapshot's lock record. -/
def lock_iterator (s : SnapLocks) (name : String) : SnapLocks :=
  if s.locked_iterators.contains name then s
  else { s with locked_iterators := s.locked_iterators ++ [name] }

/-- WorkerCtx: the coordinator-visible state of one worker: whether the
worker thread has announced `Ready` yet, its current task id (null when
idle), and its current snapshot's lock record. -/
structure WorkerCtx where
  announced : Bool
  task : Option Nat
  snap : SnapLocks
deriving DecidableEq, Repr

/-- CoordState: the coordinator's state: the fixed worker pool, the FIFO
of idle worker identities, and the next fresh task id of the database. -/
structure CoordState where
  wctxs : List WorkerCtx
  worker_queue : List Nat
  next_task_id : Nat
deriving DecidableEq, Repr

/-- NetEvent: one event the coordinator loop handles: a backend message
from worker `w` (`Ready`, `Response`, `DatasetLockReq` with its name
frames, `IteratorLockReq`) or one frontend client request. -/
inductive NetEvent where
  | ready (w : Nat)
  | response (w : Nat) (client_addr : String) (reply : String)
  | datasetLockReq (w : Nat) (frames : List String)
  | iteratorLockReq (w : Nat) (name : String)
  | frontendReq (client_addr : String) (request : String)
deriving DecidableEq, Repr

/-- NetOutput: a message the coordinator emits while handling one event:
a reply forwarded to a client, a lock reply to a worker, a dispatch to a
worker, or a `collect_garbage` call with the snapshots passed to it. -/
inductive NetOutput where
  | toClient (client_addr : String) (reply : String)
  | lockResp (w : Nat) (resp : NetLockResp)
  | dispatchTo (w : Nat) (client_addr : String) (request : String)
  | gcCall (snaps : List SnapLocks)
deriving DecidableEq, Repr

/-- Embeds the do-while receive loop of `handle_dataset_lock_req`: each
received name is pushed onto `ds_names` and the loop stops after pushing
an empty name, so the terminating zero-length frame itself ends up in the
collected list. -/
def collect_ds_names : List String → List String
  | [] => []
  | n :: rest => if n = "" then [""] else n :: collect_ds_names rest

/-- Embeds the decision of `handle_dataset_lock_req`: some collected name
is already dataset-locked by some worker (any worker, the requester
included) whose task is non-null. -/
def dataset_already_locked (wctxs : List WorkerCtx) (ds_names : List String) : Bool :=
  ds_names.any (fun n => wctxs.any (fun c => c.task.isSome && is_dataset_locked c.snap n))

/-- Embeds `NetworkService::handle_dataset_lock_req` for requester `w`
with context `ctx` (the coordinator looks `ctx` up in `wctxs` before the
call): collect the names, deny if any busy worker's snapshot already
holds one of them, else record every collected name on the requester's
snapshot and grant. -/
def handle_dataset_lock_req (st : CoordState) (w : Nat) (ctx : WorkerCtx)
    (frames : List String) : CoordState × NetLockResp :=
  let ds_names := collect_ds_names frames
  if dataset_already_locked st.wctxs ds_names then
    (st, NetLockResp.LockDenied)
  else
    let ctx2 := { ctx with snap := ds_names.foldl lock_dataset ctx.snap }
    ({ st with wctxs := st.wctxs.set w ctx2 }, NetLockResp.LockOk)

/-- Embeds `NetworkService::handle_iterator_lock_req`: deny if any busy
worker's snapshot already holds the iterator lock, else record it on the
requester's snapshot and grant. -/
def handle_iterator_lock_req (st : CoordState) (w : Nat) (ctx : WorkerCtx)
    (name : String) : CoordState × NetLockResp :=
  if st.wctxs.any (fun c => c.task.isSome && is_iterator_locked c.snap name) then
    (st, NetLockResp.LockDenied)
  else
    let ctx2 := { ctx with snap := lock_iterator ctx.snap name }
    ({ st with wctxs := st.wctxs.set w ctx2 }, NetLockResp.LockOk)

/-- Embeds `NetworkService::handle_response` for worker `w` holding task
`tid`: forward the reply to the client, commit the task (the worker's
task becomes null), then call `collect_garbage` with the snapshots of the
workers that still have a non-null task. The enclosing `poll_backend`
case has already pushed `w` onto the worker queue. -/
def handle_response (st : CoordState) (w : Nat) (ctx : WorkerCtx)
    (client_addr reply : String) : CoordState × List NetOutput :=
  let wctxs2 := st.wctxs.set w ({ ctx with task := none })
  let working := (wctxs2.filter (fun c => c.task.isSome)).map (fun c => c.snap)
  ({ st with wctxs := wctxs2 },
   [NetOutput.toClient client_addr reply, NetOutput.gcCall working])

/-- Embeds one iteration of the coordinator loop handling one event.
Returns none when the loop does not process the event in this state: a
frontend request when the worker queue is empty (the frontend socket is
then not even polled), or a backend message the worker protocol cannot
produce (a second `Ready`, or a `Response` or lock request from a worker
with no task). -/
def coord_step (st : CoordState) (e : NetEvent) :
    Option (CoordState × List NetOutput) :=
  match e with
  | NetEvent.ready w =>
      match st.wctxs[w]? with
      | none => none
      | some ctx =>
          if ctx.announced then none
          else some ({ st with
                        wctxs := st.wctxs.set w ({ ctx with announced := true }),
                        worker_queue := st.worker_queue ++ [w] }, [])
  | NetEvent.response w client_addr reply =>
      match st.wctxs[w]? with
      | none => none
      | some ctx =>
          match ctx.task with
          | none => none
          | some _ =>
              let st1 := { st with worker_queue := st.worker_queue ++ [w] }
              some (handle_response st1 w ctx client_addr reply)
  | NetEvent.datasetLockReq w frames =>
      match st.wctxs[w]? with
      | none => none
      | some ctx =>
          match ctx.task with
          | none => none
          | some _ =>
              let (st2, resp) := handle_dataset_lock_req st w ctx frames
              some (st2, [NetOutput.lockResp w resp])
  | NetEvent.iteratorLockReq w name =>
      match st.wctxs[w]? with
      | none => none
      | some ctx =>
          match ctx.task with
          | none => none
          | some _ =>
              let (st2, resp) := handle_iterator_lock_req st w ctx name
              some (st2, [NetOutput.lockResp w resp])
  | NetEvent.frontendReq client_addr request =>
      match st.worker_queue with
      | [] => none
      | w :: rest =>
          match st.wctxs[w]? with
          | none => none
          | some ctx =>
              let tid := st.next_task_id
              some ({ st with
                        worker_queue := rest,
                        wctxs := st.wctxs.set w
                          ({ ctx with task := some tid, snap := SnapLocks.mk [] [] }),
                        next_task_id := tid + 1 },
                    [NetOutput.dispatchTo w client_addr request])

/-- The initial coordinator state of `NetworkService::run`: `n` workers,
each idle with a fresh (lock-free) snapshot and not yet announced, an
empty worker queue, and task ids starting at 0. -/
def initState (n : Nat) : CoordState :=
  CoordState.mk (List.replicate n (WorkerCtx.mk false none (SnapLocks.mk [] []))) [] 0

/-- Reachable states of the coordinator loop with a pool of `n` workers. -/
inductive Reachable (n : Nat) : CoordState → Prop where
  | init : Reachable n (initState n)
  | step {st st' : CoordState} {e : NetEvent} {outs : List NetOutput} :
      Reachable n st → coord_step st e = some (st', outs) → Reachable n st'

/-! ## Verification definitions -/

/-- States the deny condition in the words of the specification of
`DatasetLockReq`: some worker other than the requester `w` is busy and
its snapshot already holds a dataset lock on a requested name. To be
compared against `dataset_already_locked`, the condition the code
computes, which does not exclude the requester. -/
def claim_deny_condition (st : CoordState) (w : Nat) (ds_names : List String) : Bool :=
  (List.range st.wctxs.length).any (fun i =>
    i != w && (match st.wctxs[i]? with
      | some c => c.task.isSome && ds_names.any (fun n => is_dataset_locked c.snap n)
      | none => false))

/-- Mutual exclusion over busy workers for one component of the snapshot
lock record (`f` selects dataset or iterator locks): no name is held by
the snapshots of two distinct workers that both have a non-null task. -/
def BusyMutexOn (f : SnapLocks → List String) (wctxs : List WorkerCtx) : Prop :=
  ∀ (i j : Nat) (ci cj : WorkerCtx) (n : String),
    wctxs[i]? = some ci → wctxs[j]? = some cj → i ≠ j →
    ci.task.isSome = true → cj.task.isSome = true →
    n ∈ f ci.snap → n ∈ f cj.snap → False

/-- Worker-queue invariant: every queued identity denotes a worker that
has announced itself and has no task, and no identity is queued twice. -/
def QueueInv (st : CoordState) : Prop :=
  (∀ w ∈ st.worker_queue, ∃ c, st.wctxs[w]? = some c ∧ c.task = none ∧
    c.announced = true) ∧
  st.worker_queue.Nodup

/-- A worker that has not announced `Ready` yet has never been
dispatched to, hence has no task. -/
def AnnInv (st : CoordState) : Prop :=
  ∀ (i : Nat) (c : WorkerCtx), st.wctxs[i]? = some c → c.announced = false →
    c.task = none

/-- The inductive invariant of the coordinator loop: fixed pool size,
well-formed worker queue, announcement discipline, and busy-worker
mutual exclusion for dataset and iterator locks. -/
def CoordInv (n : Nat) (st : CoordState) : Prop :=
  st.wctxs.length = n ∧ QueueInv st ∧ AnnInv st ∧
  BusyMutexOn (fun s => s.locked_datasets) st.wctxs ∧
  BusyMutexOn (fun s => s.locked_iterators) st.wctxs

/-- A coordinator state with one busy worker whose snapshot already
holds a dataset lock on "a" (reached by granting it a lock request for
"a"); used to compare the code's deny condition with the spec's. -/
def c1state : CoordState :=
  CoordState.mk [WorkerCtx.mk true (some 0) (SnapLocks.mk ["a", ""] [])] [] 1

/-- The worker context of the single worker of `c1state`. -/
def c1ctx : WorkerCtx := WorkerCtx.mk true (some 0) (SnapLocks.mk ["a", ""] [])

/-- A coordinator state with two workers in which the idle worker 0
(task committed, not yet redispatched) and the busy worker 1 both hold
a dataset lock on "ds1" in their snapshots. -/
def c2state : CoordState :=
  CoordState.mk
    [WorkerCtx.mk true none (SnapLocks.mk ["ds1", ""] []),
     WorkerCtx.mk true (some 1) (SnapLocks.mk ["ds1", ""] [])]
    [0] 2

/-- A coordinator state with one busy worker, used to instantiate the
response-commit theorem. -/
def c8state : CoordState :=
  CoordState.mk [WorkerCtx.mk true (some 0) (SnapLocks.mk [] [])] [] 1

/-- The worker context of the single worker of `c8state`. -/
def c8ctx : WorkerCtx := WorkerCtx.mk true (some 0) (SnapLocks.mk [] [])

end Ursa

namespace Ursa

/-! ## Lemmas about the config map helpers -/

/-- Lookup after insertion: the inserted key maps to the new value,
every other key is unaffected. -/
theorem map_find_insert (vals : List (String × Nat)) (k k' : String) (v : Nat) :
    map_find (map_insert vals k v) k' = if k' = k then some v else map_find vals k' := by
  induction vals with
  | nil =>
      by_cases h : k' = k
      · simp [map_insert, map_find, h]
      · simp [map_insert, map_find, h, Ne.symm h]
  | cons p rest ih =>
      by_cases hp : p.1 = k
      · by_cases h : k' = k
        · simp [map_insert, map_find, hp, h]
        · simp [map_insert, map_find, hp, h, Ne.symm h,
            fun h2 : p.1 = k' => h (h2.symm.trans hp)]
      · by_cases h : k' = k
        · subst h
          simp [map_insert, map_find, hp, ih]
        · simp [map_insert, map_find, hp, h, ih]

/-- Characterisation of the ConfigGet resolution loop: a name maps to
its configured value exactly when it was requested and parses; all
other names keep their binding from the accumulator. -/
theorem config_get_loop_find {Key : Type} (cfg : DatabaseConfig Key)
    (keys : List String) (vals : List (String × Nat)) (name : String) :
    map_find (config_get_loop cfg keys vals) name =
      if name ∈ keys ∧ (cfg.parse name).isSome then (cfg.parse name).map cfg.get
      else map_find vals name := by
  induction keys generalizing vals with
  | nil => simp [config_get_loop]
  | cons key keys ih =>
      have step : config_get_loop cfg (key :: keys) vals =
          config_get_loop cfg keys (match cfg.parse key with
            | some k => map_insert vals key (cfg.get k)
            | none => vals) := rfl
      rw [step, ih]
      by_cases hk : name = key
      · subst hk
        cases hpn : cfg.parse name with
        | none => by_cases hmem : name ∈ keys <;> simp [hpn, hmem]
        | some k => by_cases hmem : name ∈ keys <;> simp [hpn, hmem, map_find_insert]
      · cases hpk : cfg.parse key with
        | none => by_cases hmem : name ∈ keys <;> simp [hpk, hmem, hk]
        | some k => by_cases hmem : name ∈ keys <;> simp [hpk, hmem, hk, map_find_insert]

/-! ## Claims about the executor and lock planner -/

/-- C3: for a Taint command on an existing dataset, no DBChange is
appended and `ok` is returned when the dataset already carries the tag
and the mode is add, or does not carry it and the mode is remove;
otherwise exactly one ToggleTaint DBChange is appended and `ok` is
returned. On a missing dataset the executor fails with a runtime error
(turned into an error response by the dispatcher) and appends no
DBChange. -/
theorem claim_C3_taint {Key : Type} (cmd : TaintCommand) (task : Task)
    (snap : DatabaseSnapshot Key) :
    (snap.find_dataset cmd.dataset = none →
      execute_command_taint cmd task snap =
        (Except.error (Fault.runtimeError "can't taint non-existent dataset"), task)) ∧
    (∀ ds, snap.find_dataset cmd.dataset = some ds →
      ((cmd.taint ∈ ds.taints ∧ cmd.mode = TaintMode.Add) ∨
          (cmd.taint ∉ ds.taints ∧ cmd.mode = TaintMode.Remove) →
        execute_command_taint cmd task snap = (Except.ok Response.ok, task)) ∧
      ((cmd.taint ∈ ds.taints ∧ cmd.mode = TaintMode.Remove) ∨
          (cmd.taint ∉ ds.taints ∧ cmd.mode = TaintMode.Add) →
        execute_command_taint cmd task snap =
          (Except.ok Response.ok,
           task.change (DBChange.mk DbChangeType.ToggleTaint cmd.dataset cmd.taint)))) := by
  constructor
  · intro h
    simp [execute_command_taint, h]
  · intro ds hds
    constructor
    · rintro (⟨hmem, hmode⟩ | ⟨hmem, hmode⟩) <;>
        simp [execute_command_taint, hds, hmode, List.contains, List.elem_iff, hmem]
    · rintro (⟨hmem, hmode⟩ | ⟨hmem, hmode⟩) <;>
        simp [execute_command_taint, hds, hmode, List.contains, List.elem_iff, hmem]

/-- C4: ConfigGet with an empty key list returns all known config pairs;
with a non-empty key list it returns a config response (never an error)
in which every requested name that parses is bound to its configured
value, every name that does not parse is absent, and no name outside the
request appears. -/
theorem claim_C4_config_get {Key : Type} (cmd : ConfigGetCommand)
    (snap : DatabaseSnapshot Key) :
    (cmd.keys = [] →
      execute_command_config_get cmd snap = Response.config snap.config.get_all) ∧
    (cmd.keys ≠ [] →
      ∃ vals, execute_command_config_get cmd snap = Response.config vals ∧
        (∀ name ∈ cmd.keys, ∀ key, snap.config.parse name = some key →
            map_find vals name = some (snap.config.get key)) ∧
        (∀ name, snap.config.parse name = none → map_find vals name = none) ∧
        (∀ name, map_find vals name ≠ none →
            name ∈ cmd.keys ∧ (snap.config.parse name).isSome)) := by
  constructor
  · intro h
    simp [execute_command_config_get, h]
  · intro h
    refine ⟨config_get_loop snap.config cmd.keys [], ?_, ?_, ?_, ?_⟩
    · simp [execute_command_config_get, h]
    · intro name hmem key hparse
      rw [config_get_loop_find, if_pos ⟨hmem, by simp [hparse]⟩, hparse]
      rfl
    · intro name hparse
      rw [config_get_loop_find]
      by_cases hmem : name ∈ cmd.keys <;> simp [hparse, hmem, map_find]
    · intro name hfind
      rw [config_get_loop_find] at hfind
      by_cases hc : name ∈ cmd.keys ∧ (snap.config.parse name).isSome
      · exact hc
      · rw [if_neg hc] at hfind
        exact absurd rfl hfind

/-- C5: ConfigSet returns an error response and appends no DBChange when
the key does not parse or the value is out of range; otherwise it
appends exactly one ConfigChange DBChange carrying the key and the
decimal rendering of the value, and returns `ok`. -/
theorem claim_C5_config_set {Key : Type} (cmd : ConfigSetCommand) (task : Task)
    (snap : DatabaseSnapshot Key) :
    (snap.config.parse cmd.key = none →
      execute_command_config_set cmd task snap =
        (Response.error "Invalid key name specified", task)) ∧
    (∀ key, snap.config.parse cmd.key = some key →
      (snap.config.can_set key cmd.value = false →
        execute_command_config_set cmd task snap =
          (Response.error "Value specified is out of range", task)) ∧
      (snap.config.can_set key cmd.value = true →
        execute_command_config_set cmd task snap =
          (Response.ok, task.change
            (DBChange.mk DbChangeType.ConfigChange cmd.key (Nat.repr cmd.value))))) := by
  refine ⟨fun h => by simp [execute_command_config_set, h], fun key hkey => ⟨?_, ?_⟩⟩
  · intro h
    simp [execute_command_config_set, hkey, h]
  · intro h
    simp [execute_command_config_set, hkey, h]

/-- C6: the safe dispatcher returns the executor's response when parsing
and execution succeed, converts a runtime error (from either stage) into
`Response::error` with the error's message, converts an allocation
failure into `Response::error "out of memory"`, and propagates every
other fault unchanged. -/
theorem claim_C6_dispatch_safe (parse : String → Except Fault Command)
    (dispatch : Command → Except Fault Response) (cmd_str : String) :
    (∀ cmd r, parse cmd_str = Except.ok cmd → dispatch cmd = Except.ok r →
        dispatch_command_safe parse dispatch cmd_str = Except.ok r) ∧
    (∀ msg, (parse cmd_str).bind dispatch = Except.error (Fault.runtimeError msg) →
        dispatch_command_safe parse dispatch cmd_str = Except.ok (Response.error msg)) ∧
    ((parse cmd_str).bind dispatch = Except.error Fault.badAlloc →
        dispatch_command_safe parse dispatch cmd_str =
          Except.ok (Response.error "out of memory")) ∧
    (∀ tag, (parse cmd_str).bind dispatch = Except.error (Fault.other tag) →
        dispatch_command_safe parse dispatch cmd_str =
          Except.error (Fault.other tag)) := by
  refine ⟨?_, ?_, ?_, ?_⟩
  · intro cmd r hp hd
    simp [dispatch_command_safe, hp, Except.bind, hd]
  · intro msg h
    simp [dispatch_command_safe, h]
  · intro h
    simp [dispatch_command_safe, h]
  · intro tag h
    simp [dispatch_command_safe, h]

/-- C7: the lock planner returns exactly an IteratorLock on the iterator
for IteratorPop, a DatasetLock on the dataset for Reindex, DatasetLocks
on the smart (resp. full) compaction candidates in candidate order for
Compact, a DatasetLock on the dataset for Taint, and no lock for every
other command variant. -/
theorem claim_C7_lock_planner {Key : Type} (snap : DatabaseSnapshot Key) :
    (∀ c, dispatch_locks (Command.iteratorPop c) snap
        = [DatabaseLock.IteratorLock c.iterator_id]) ∧
    (∀ c, dispatch_locks (Command.reindex c) snap
        = [DatabaseLock.DatasetLock c.dataset_id]) ∧
    dispatch_locks (Command.compact (CompactCommand.mk CompactType.Smart)) snap
        = snap.compact_smart_candidates.map DatabaseLock.DatasetLock ∧
    dispatch_locks (Command.compact (CompactCommand.mk CompactType.Full)) snap
        = snap.compact_full_candidates.map DatabaseLock.DatasetLock ∧
    (∀ c, dispatch_locks (Command.taint c) snap
        = [DatabaseLock.DatasetLock c.dataset]) ∧
    (∀ c, dispatch_locks (Command.select c) snap = []) ∧
    (∀ c, dispatch_locks (Command.index c) snap = []) ∧
    (∀ c, dispatch_locks (Command.indexFrom c) snap = []) ∧
    (∀ c, dispatch_locks (Command.configGet c) snap = []) ∧
    (∀ c, dispatch_locks (Command.configSet c) snap = []) ∧
    dispatch_locks Command.status snap = [] ∧
    dispatch_locks Command.topology snap = [] ∧
    dispatch_locks Command.ping snap = [] ∧
    (∀ c, dispatch_locks (Command.datasetDrop c) snap = []) := by
  refine ⟨fun c => rfl, fun c => rfl, rfl, rfl, fun c => rfl, fun c => rfl,
    fun c => rfl, fun c => rfl, fun c => rfl, fun c => rfl, rfl, rfl, rfl, fun c => rfl⟩

end Ursa

namespace Ursa

/-! ## Lemmas about snapshot lock records -/

/-- Bridging lemma: the Boolean dataset-lock test is membership. -/
theorem is_dataset_locked_iff (s : SnapLocks) (n : String) :
    is_dataset_locked s n = true ↔ n ∈ s.locked_datasets := by
  simp [is_dataset_locked, List.contains, List.elem_iff]

/-- Recording one dataset lock adds exactly that name. -/
theorem mem_lock_dataset (s : SnapLocks) (m n : String) :
    n ∈ (lock_dataset s m).locked_datasets ↔ n ∈ s.locked_datasets ∨ n = m := by
  by_cases hm : m ∈ s.locked_datasets
  · simp only [lock_dataset, List.contains, hm, if_pos, List.elem_iff]
    constructor
    · exact Or.inl
    · rintro (h2 | rfl)
      · exact h2
      · exact hm
  · simp [lock_dataset, hm, List.mem_append]

/-- Recording a list of dataset locks adds exactly those names. -/
theorem mem_foldl_lock_dataset (names : List String) (s : SnapLocks) (n : String) :
    n ∈ (names.foldl lock_dataset s).locked_datasets ↔
      n ∈ s.locked_datasets ∨ n ∈ names := by
  induction names generalizing s with
  | nil => simp
  | cons m rest ih =>
      rw [List.foldl_cons, ih, mem_lock_dataset, List.mem_cons]
      tauto

/-- Recording dataset locks leaves the iterator locks unchanged. -/
theorem locked_iterators_foldl_lock_dataset (names : List String) (s : SnapLocks) :
    (names.foldl lock_dataset s).locked_iterators = s.locked_iterators := by
  induction names generalizing s with
  | nil => rfl
  | cons m rest ih =>
      rw [List.foldl_cons, ih]
      by_cases hm : m ∈ s.locked_datasets <;> simp [lock_dataset, hm]

/-- Bridging lemma: the Boolean iterator-lock test is membership. -/
theorem is_iterator_locked_iff (s : SnapLocks) (n : String) :
    is_iterator_locked s n = true ↔ n ∈ s.locked_iterators := by
  simp [is_iterator_locked, List.contains, List.elem_iff]

/-- Recording one iterator lock adds exactly that name. -/
theorem mem_lock_iterator (s : SnapLocks) (m n : String) :
    n ∈ (lock_iterator s m).locked_iterators ↔ n ∈ s.locked_iterators ∨ n = m := by
  by_cases hm : m ∈ s.locked_iterators
  · simp only [lock_iterator, List.contains, hm, if_pos, List.elem_iff]
    constructor
    · exact Or.inl
    · rintro (h2 | rfl)
      · exact h2
      · exact hm
  · simp [lock_iterator, hm, List.mem_append]

/-- Recording an iterator lock leaves the dataset locks unchanged. -/
theorem locked_datasets_lock_iterator (s : SnapLocks) (m : String) :
    (lock_iterator s m).locked_datasets = s.locked_datasets := by
  by_cases hm : m ∈ s.locked_iterators <;> simp [lock_iterator, hm]

/-- The code's deny condition holds exactly when some collected name is
dataset-locked in the snapshot of some busy worker (any worker,
requester included). -/
theorem dataset_already_locked_iff (wctxs : List WorkerCtx) (ds_names : List String) :
    dataset_already_locked wctxs ds_names = true ↔
      ∃ n ∈ ds_names, ∃ (i : Nat) (c : WorkerCtx), wctxs[i]? = some c ∧ c.task.isSome = true ∧
        is_dataset_locked c.snap n = true := by
  simp only [dataset_already_locked, List.any_eq_true, Bool.and_eq_true]
  constructor
  · rintro ⟨n, hn, c, hc, htask, hlock⟩
    obtain ⟨i, hi⟩ := List.mem_iff_getElem?.mp hc
    exact ⟨n, hn, i, c, hi, htask, hlock⟩
  · rintro ⟨n, hn, i, c, hi, htask, hlock⟩
    exact ⟨n, hn, c, List.mem_iff_getElem?.mpr ⟨i, hi⟩, htask, hlock⟩

/-! ## Claims C1 and C10: the dataset lock handler -/

/-- C1 (amended): the handler replies LockDenied exactly when some
worker — including possibly the requester itself, which the claim
excluded — is busy and its snapshot holds a dataset lock on a collected
name; a denial leaves the state unchanged, and a grant records every
collected name on the requester's snapshot and changes no other
worker. -/
theorem claim_C1_dataset_lock_req (st : CoordState) (w : Nat) (ctx : WorkerCtx)
    (frames : List String) (h : st.wctxs[w]? = some ctx) :
    ((handle_dataset_lock_req st w ctx frames).2 = NetLockResp.LockDenied ↔
      ∃ n ∈ collect_ds_names frames, ∃ (i : Nat) (c : WorkerCtx), st.wctxs[i]? = some c ∧
        c.task.isSome = true ∧ is_dataset_locked c.snap n = true) ∧
    ((handle_dataset_lock_req st w ctx frames).2 = NetLockResp.LockDenied →
      (handle_dataset_lock_req st w ctx frames).1 = st) ∧
    ((handle_dataset_lock_req st w ctx frames).2 = NetLockResp.LockOk →
      ∃ c, (handle_dataset_lock_req st w ctx frames).1.wctxs[w]? = some c ∧
        (∀ n ∈ collect_ds_names frames, is_dataset_locked c.snap n = true) ∧
        (∀ i, i ≠ w →
          (handle_dataset_lock_req st w ctx frames).1.wctxs[i]? = st.wctxs[i]?)) := by
  obtain ⟨hw, -⟩ := List.getElem?_eq_some.mp h
  cases hal : dataset_already_locked st.wctxs (collect_ds_names frames) with
  | true =>
      have hres : handle_dataset_lock_req st w ctx frames = (st, NetLockResp.LockDenied) := by
        simp [handle_dataset_lock_req, hal]
      rw [hres]
      refine ⟨iff_of_true rfl ((dataset_already_locked_iff _ _).mp hal), fun _ => rfl, ?_⟩
      intro hok
      exact absurd hok (by simp)
  | false =>
      have hres : handle_dataset_lock_req st w ctx frames =
          ({ st with wctxs := st.wctxs.set w ({ ctx with snap := (collect_ds_names frames).foldl lock_dataset ctx.snap }) },
           NetLockResp.LockOk) := by
        simp [handle_dataset_lock_req, hal]
      rw [hres]
      refine ⟨?_, ?_, ?_⟩
      · refine iff_of_false (by simp) ?_
        rw [← dataset_already_locked_iff]
        simp [hal]
      · intro hd
        exact absurd hd (by simp)
      · intro _
        refine ⟨{ ctx with snap := (collect_ds_names frames).foldl lock_dataset ctx.snap }, ?_, ?_, ?_⟩
        · rw [List.getElem?_set_self hw]
        · intro n hn
          rw [is_dataset_locked_iff, mem_foldl_lock_dataset]
          exact Or.inr hn
        · intro i hi
          rw [List.getElem?_set_ne (Ne.symm hi)]

/-- C1 witness: the deny-iff of the lock handler, instantiated at the
one-worker state `c1state`. -/
theorem claim_C1_dataset_lock_req_witness :
    (handle_dataset_lock_req c1state 0 c1ctx ["a", ""]).2 = NetLockResp.LockDenied ↔
      ∃ n ∈ collect_ds_names ["a", ""], ∃ (i : Nat) (c : WorkerCtx), c1state.wctxs[i]? = some c ∧
        c.task.isSome = true ∧ is_dataset_locked c.snap n = true :=
  (claim_C1_dataset_lock_req c1state 0 c1ctx ["a", ""] rfl).1

/-- C1 counterexample: in the reachable state `c1state` the single
worker 0 is busy and already holds a dataset lock on "a"; its own
repeated request for "a" is denied by the code, although no worker
other than the requester is busy and holding a requested lock, so the
claim's "if and only if some worker other than the requester" is false
on the code. -/
theorem claim_C1_counterexample :
    Reachable 1 c1state ∧
    c1state.wctxs[0]? = some c1ctx ∧
    (handle_dataset_lock_req c1state 0 c1ctx ["a", ""]).2 = NetLockResp.LockDenied ∧
    claim_deny_condition c1state 0 (collect_ds_names ["a", ""]) = false := by
  refine ⟨?_, by decide, by decide, by decide⟩
  have h0 : Reachable 1 (initState 1) := Reachable.init
  have e1 : coord_step (initState 1) (NetEvent.ready 0) =
      some (CoordState.mk [WorkerCtx.mk true none (SnapLocks.mk [] [])] [0] 0, []) := by
    decide
  have h1 := Reachable.step h0 e1
  have e2 : coord_step (CoordState.mk [WorkerCtx.mk true none (SnapLocks.mk [] [])] [0] 0)
      (NetEvent.frontendReq "c" "r") =
      some (CoordState.mk [WorkerCtx.mk true (some 0) (SnapLocks.mk [] [])] [] 1,
        [NetOutput.dispatchTo 0 "c" "r"]) := by
    decide
  have h2 := Reachable.step h1 e2
  have e3 : coord_step (CoordState.mk [WorkerCtx.mk true (some 0) (SnapLocks.mk [] [])] [] 1)
      (NetEvent.datasetLockReq 0 ["a", ""]) =
      some (c1state, [NetOutput.lockResp 0 NetLockResp.LockOk]) := by
    decide
  exact Reachable.step h2 e3

/-- The collection loop keeps the terminating empty name: on a frame
list of non-empty names followed by the empty terminator, it returns
all of them, terminator included. -/
theorem collect_ds_names_eq (names : List String) (h : "" ∉ names) :
    collect_ds_names (names ++ [""]) = names ++ [""] := by
  induction names with
  | nil => rfl
  | cons n rest ih =>
      have hn : ¬ n = "" := fun h2 => h (by rw [h2]; exact List.mem_cons_self _ _)
      have hr : "" ∉ rest := fun h2 => h (List.mem_cons_of_mem _ h2)
      simp [collect_ds_names, hn, ih hr]

/-- C10: the collected name list includes the zero-length terminator
frame as an empty-string entry, and on a granted request the empty
string is recorded as a locked dataset name on the requester's snapshot
alongside the requested names. -/
theorem claim_C10_terminator_locked (names : List String) (st : CoordState) (w : Nat)
    (ctx : WorkerCtx) (h : "" ∉ names) (h2 : st.wctxs[w]? = some ctx) :
    collect_ds_names (names ++ [""]) = names ++ [""] ∧
    ((handle_dataset_lock_req st w ctx (names ++ [""])).2 = NetLockResp.LockOk →
      ∃ c, (handle_dataset_lock_req st w ctx (names ++ [""])).1.wctxs[w]? = some c ∧
        is_dataset_locked c.snap "" = true ∧
        ∀ n ∈ names, is_dataset_locked c.snap n = true) := by
  obtain ⟨hw, -⟩ := List.getElem?_eq_some.mp h2
  refine ⟨collect_ds_names_eq names h, ?_⟩
  intro hok
  cases hal : dataset_already_locked st.wctxs (collect_ds_names (names ++ [""])) with
  | true =>
      have hden : (handle_dataset_lock_req st w ctx (names ++ [""])).2 =
          NetLockResp.LockDenied := by
        simp [handle_dataset_lock_req, hal]
      rw [hden] at hok
      exact absurd hok (by simp)
  | false =>
      have hres : handle_dataset_lock_req st w ctx (names ++ [""]) =
          ({ st with wctxs := st.wctxs.set w ({ ctx with snap := (collect_ds_names (names ++ [""])).foldl lock_dataset ctx.snap }) },
           NetLockResp.LockOk) := by
        simp [handle_dataset_lock_req, hal]
      rw [hres]
      refine ⟨{ ctx with snap := (collect_ds_names (names ++ [""])).foldl lock_dataset ctx.snap }, ?_, ?_, ?_⟩
      · rw [List.getElem?_set_self hw]
      · rw [is_dataset_locked_iff, mem_foldl_lock_dataset, collect_ds_names_eq names h]
        exact Or.inr (List.mem_append_right _ (List.mem_singleton.mpr rfl))
      · intro n hn
        rw [is_dataset_locked_iff, mem_foldl_lock_dataset, collect_ds_names_eq names h]
        exact Or.inr (List.mem_append_left _ hn)

/-- C10 witness: the collection loop applied to the single name "a"
with its terminator. -/
theorem claim_C10_terminator_locked_witness :
    collect_ds_names (["a"] ++ [""]) = ["a"] ++ [""] :=
  (claim_C10_terminator_locked ["a"] c1state 0 c1ctx (by decide) rfl).1

end Ursa

namespace Ursa

/-! ## The coordinator invariant and its preservation -/

/-- Indexing into a list after `set`: either the index is the updated
one and the element is the new value, or the lookup is unchanged. -/
theorem getElem?_set_cases {α : Type} {l : List α} {w i : Nat} {x c : α}
    (h : (l.set w x)[i]? = some c) :
    (i = w ∧ c = x) ∨ (i ≠ w ∧ l[i]? = some c) := by
  by_cases hiw : i = w
  · subst hiw
    have hlen : i < (l.set i x).length := (List.getElem?_eq_some.mp h).1
    rw [List.length_set] at hlen
    rw [List.getElem?_set_self hlen] at h
    exact Or.inl ⟨rfl, (Option.some_inj.mp h).symm⟩
  · rw [List.getElem?_set_ne (Ne.symm hiw)] at h
    exact Or.inr ⟨hiw, h⟩

/-- Appending a fresh element to a duplicate-free list keeps it
duplicate-free. -/
theorem nodup_append_singleton {l : List Nat} {w : Nat} (h : l.Nodup) (hw : w ∉ l) :
    (l ++ [w]).Nodup := by
  rw [List.nodup_append]
  exact ⟨h, List.nodup_singleton w, fun a ha hb => hw ((List.mem_singleton.mp hb) ▸ ha)⟩

/-- Busy-worker mutual exclusion survives updating one worker when the
updated worker either becomes idle or holds, for each name it ends up
holding, only names it already held while busy or names no other busy
worker holds. -/
theorem busyMutexOn_set (f : SnapLocks → List String) (l : List WorkerCtx)
    (w : Nat) (ctx ctx2 : WorkerCtx)
    (hl : BusyMutexOn f l) (hget : l[w]? = some ctx)
    (hcase : ctx2.task.isSome = false ∨
      (∀ n, ctx2.task.isSome = true → n ∈ f ctx2.snap →
        (ctx.task.isSome = true ∧ n ∈ f ctx.snap) ∨
        (∀ (j : Nat) (cj : WorkerCtx), l[j]? = some cj → j ≠ w →
          cj.task.isSome = true → n ∉ f cj.snap))) :
    BusyMutexOn f (l.set w ctx2) := by
  intro i j ci cj n hi hj hij hbi hbj hni hnj
  rcases getElem?_set_cases hi with ⟨hiw, rfl⟩ | ⟨hiw, hi2⟩
  · rcases getElem?_set_cases hj with ⟨hjw, rfl⟩ | ⟨hjw, hj2⟩
    · exact hij (hiw.trans hjw.symm)
    · subst hiw
      rcases hcase with hidle | hcase
      · rw [hidle] at hbi
        cases hbi
      · rcases hcase n hbi hni with ⟨hbold, hnold⟩ | hnone
        · exact hl i j ctx cj n hget hj2 hij hbold hbj hnold hnj
        · exact hnone j cj hj2 (Ne.symm hij) hbj hnj
  · rcases getElem?_set_cases hj with ⟨hjw, rfl⟩ | ⟨hjw, hj2⟩
    · subst hjw
      rcases hcase with hidle | hcase
      · rw [hidle] at hbj
        cases hbj
      · rcases hcase n hbj hnj with ⟨hbold, hnold⟩ | hnone
        · exact hl i j ci ctx n hi2 hget hij hbi hbold hni hnold
        · exact hnone i ci hi2 hiw hbi hni
    · exact hl i j ci cj n hi2 hj2 hij hbi hbj hni hnj

/-- A false deny condition means no busy worker holds any collected
name. -/
theorem dataset_already_locked_false_spec {wctxs : List WorkerCtx}
    {ds_names : List String}
    (h : dataset_already_locked wctxs ds_names = false) :
    ∀ n ∈ ds_names, ∀ (j : Nat) (cj : WorkerCtx), wctxs[j]? = some cj →
      cj.task.isSome = true → n ∉ cj.snap.locked_datasets := by
  intro n hn j cj hj hb hmem
  have h2 : dataset_already_locked wctxs ds_names = true :=
    (dataset_already_locked_iff wctxs ds_names).mpr
      ⟨n, hn, j, cj, hj, hb, (is_dataset_locked_iff _ _).mpr hmem⟩
  rw [h] at h2
  cases h2

/-- A false iterator-conflict check means no busy worker holds the
iterator lock. -/
theorem iterator_check_false_spec {wctxs : List WorkerCtx} {name : String}
    (h : wctxs.any (fun c => c.task.isSome && is_iterator_locked c.snap name) = false) :
    ∀ (j : Nat) (cj : WorkerCtx), wctxs[j]? = some cj → cj.task.isSome = true →
      name ∉ cj.snap.locked_iterators := by
  intro j cj hj hb hmem
  have h2 : wctxs.any (fun c => c.task.isSome && is_iterator_locked c.snap name) = true := by
    rw [List.any_eq_true]
    refine ⟨cj, List.mem_iff_getElem?.mpr ⟨j, hj⟩, ?_⟩
    rw [Bool.and_eq_true]
    exact ⟨hb, (is_iterator_locked_iff _ _).mpr hmem⟩
  rw [h] at h2
  cases h2

end Ursa

namespace Ursa

/-- One coordinator step preserves the inductive invariant. -/
theorem coord_step_inv {n : Nat} {st st' : CoordState} {e : NetEvent}
    {outs : List NetOutput} (hinv : CoordInv n st)
    (hstep : coord_step st e = some (st', outs)) : CoordInv n st' := by
  obtain ⟨hlen, ⟨hqmem, hqnodup⟩, hann, hds, hit⟩ := hinv
  cases e with
  | ready w =>
      simp only [coord_step] at hstep
      cases hget : st.wctxs[w]? with
      | none => simp [hget] at hstep
      | some ctx =>
          cases hannw : ctx.announced with
          | true => simp [hget, hannw] at hstep
          | false =>
              simp only [hget, hannw, Bool.false_eq_true, if_false,
                Option.some_inj] at hstep
              rw [Prod.mk.injEq] at hstep
              obtain ⟨h1, h2⟩ := hstep
              subst h1
              have hw : w < st.wctxs.length := (List.getElem?_eq_some.mp hget).1
              have hwq : w ∉ st.worker_queue := by
                intro hmem
                obtain ⟨c, hc, -, hca⟩ := hqmem w hmem
                rw [hget] at hc
                rw [← Option.some_inj.mp hc, hannw] at hca
                cases hca
              refine ⟨by rw [List.length_set]; exact hlen, ⟨?_, ?_⟩, ?_, ?_, ?_⟩
              · intro x hx
                rcases List.mem_append.mp hx with hxq | hxw
                · obtain ⟨c, hc, hct, hca⟩ := hqmem x hxq
                  have hxne : x ≠ w := fun hh => hwq (hh ▸ hxq)
                  exact ⟨c, by rw [List.getElem?_set_ne (Ne.symm hxne)]; exact hc, hct, hca⟩
                · have hxw2 : x = w := List.mem_singleton.mp hxw
                  subst hxw2
                  exact ⟨{ ctx with announced := true }, List.getElem?_set_self hw,
                    hann x ctx hget hannw, rfl⟩
              · exact nodup_append_singleton hqnodup hwq
              · intro i c hi hf
                rcases getElem?_set_cases hi with ⟨hiw, rfl⟩ | ⟨hiw, hi2⟩
                · cases hf
                · exact hann i c hi2 hf
              · exact busyMutexOn_set _ _ _ ctx _ hds hget
                  (Or.inr (fun m hb hm => Or.inl ⟨hb, hm⟩))
              · exact busyMutexOn_set _ _ _ ctx _ hit hget
                  (Or.inr (fun m hb hm => Or.inl ⟨hb, hm⟩))
  | response w ca reply =>
      simp only [coord_step] at hstep
      cases hget : st.wctxs[w]? with
      | none => simp [hget] at hstep
      | some ctx =>
          cases htask : ctx.task with
          | none => simp [hget, htask] at hstep
          | some tid =>
              simp only [hget, htask, handle_response, Option.some_inj] at hstep
              rw [Prod.mk.injEq] at hstep
              obtain ⟨h1, h2⟩ := hstep
              subst h1
              have hw : w < st.wctxs.length := (List.getElem?_eq_some.mp hget).1
              have hanntrue : ctx.announced = true := by
                cases hc : ctx.announced with
                | true => rfl
                | false =>
                    have h0 := hann w ctx hget hc
                    rw [htask] at h0
                    cases h0
              have hwq : w ∉ st.worker_queue := by
                intro hmem
                obtain ⟨c, hc, hct, -⟩ := hqmem w hmem
                rw [hget] at hc
                rw [← Option.some_inj.mp hc, htask] at hct
                cases hct
              refine ⟨by rw [List.length_set]; exact hlen, ⟨?_, ?_⟩, ?_, ?_, ?_⟩
              · intro x hx
                rcases List.mem_append.mp hx with hxq | hxw
                · obtain ⟨c, hc, hct, hca⟩ := hqmem x hxq
                  have hxne : x ≠ w := fun hh => hwq (hh ▸ hxq)
                  exact ⟨c, by rw [List.getElem?_set_ne (Ne.symm hxne)]; exact hc, hct, hca⟩
                · have hxw2 : x = w := List.mem_singleton.mp hxw
                  subst hxw2
                  exact ⟨{ ctx with task := none }, List.getElem?_set_self hw, rfl, hanntrue⟩
              · exact nodup_append_singleton hqnodup hwq
              · intro i c hi hf
                rcases getElem?_set_cases hi with ⟨hiw, rfl⟩ | ⟨hiw, hi2⟩
                · rfl
                · exact hann i c hi2 hf
              · exact busyMutexOn_set _ _ _ ctx _ hds hget (Or.inl rfl)
              · exact busyMutexOn_set _ _ _ ctx _ hit hget (Or.inl rfl)
  | datasetLockReq w frames =>
      simp only [coord_step] at hstep
      cases hget : st.wctxs[w]? with
      | none => simp [hget] at hstep
      | some ctx =>
          cases htask : ctx.task with
          | none => simp [hget, htask] at hstep
          | some tid =>
              cases hal : dataset_already_locked st.wctxs (collect_ds_names frames) with
              | true =>
                  simp only [hget, htask, handle_dataset_lock_req, hal, if_true,
                    Option.some_inj] at hstep
                  rw [Prod.mk.injEq] at hstep
                  obtain ⟨h1, h2⟩ := hstep
                  subst h1
                  exact ⟨hlen, ⟨hqmem, hqnodup⟩, hann, hds, hit⟩
              | false =>
                  simp only [hget, htask, handle_dataset_lock_req, hal,
                    Bool.false_eq_true, if_false, Option.some_inj] at hstep
                  rw [Prod.mk.injEq] at hstep
                  obtain ⟨h1, h2⟩ := hstep
                  subst h1
                  have hw : w < st.wctxs.length := (List.getElem?_eq_some.mp hget).1
                  have hwq : w ∉ st.worker_queue := by
                    intro hmem
                    obtain ⟨c, hc, hct, -⟩ := hqmem w hmem
                    rw [hget] at hc
                    rw [← Option.some_inj.mp hc, htask] at hct
                    cases hct
                  refine ⟨by rw [List.length_set]; exact hlen, ⟨?_, ?_⟩, ?_, ?_, ?_⟩
                  · intro x hx
                    obtain ⟨c, hc, hct, hca⟩ := hqmem x hx
                    have hxne : x ≠ w := fun hh => hwq (hh ▸ hx)
                    exact ⟨c, by rw [List.getElem?_set_ne (Ne.symm hxne)]; exact hc, hct, hca⟩
                  · exact hqnodup
                  · intro i c hi hf
                    rcases getElem?_set_cases hi with ⟨hiw, rfl⟩ | ⟨hiw, hi2⟩
                    · have h0 := hann w ctx hget hf
                      rw [htask] at h0
                      cases h0
                    · exact hann i c hi2 hf
                  · refine busyMutexOn_set _ _ _ ctx _ hds hget (Or.inr ?_)
                    intro m hb hm
                    rcases (mem_foldl_lock_dataset (collect_ds_names frames)
                        ctx.snap m).mp hm with hold | hnew
                    · exact Or.inl ⟨by rw [htask]; rfl, hold⟩
                    · exact Or.inr (fun j cj hj hjw hbj =>
                        dataset_already_locked_false_spec hal m hnew j cj hj hbj)
                  · refine busyMutexOn_set _ _ _ ctx _ hit hget (Or.inr ?_)
                    intro m hb hm
                    have hm2 : m ∈ ((collect_ds_names frames).foldl lock_dataset
                        ctx.snap).locked_iterators := hm
                    rw [locked_iterators_foldl_lock_dataset] at hm2
                    exact Or.inl ⟨by rw [htask]; rfl, hm2⟩
  | iteratorLockReq w name =>
      simp only [coord_step] at hstep
      cases hget : st.wctxs[w]? with
      | none => simp [hget] at hstep
      | some ctx =>
          cases htask : ctx.task with
          | none => simp [hget, htask] at hstep
          | some tid =>
              cases hal : st.wctxs.any
                  (fun c => c.task.isSome && is_iterator_locked c.snap name) with
              | true =>
                  simp only [hget, htask, handle_iterator_lock_req, hal, if_true,
                    Option.some_inj] at hstep
                  rw [Prod.mk.injEq] at hstep
                  obtain ⟨h1, h2⟩ := hstep
                  subst h1
                  exact ⟨hlen, ⟨hqmem, hqnodup⟩, hann, hds, hit⟩
              | false =>
                  simp only [hget, htask, handle_iterator_lock_req, hal,
                    Bool.false_eq_true, if_false, Option.some_inj] at hstep
                  rw [Prod.mk.injEq] at hstep
                  obtain ⟨h1, h2⟩ := hstep
                  subst h1
                  have hw : w < st.wctxs.length := (List.getElem?_eq_some.mp hget).1
                  have hwq : w ∉ st.worker_queue := by
                    intro hmem
                    obtain ⟨c, hc, hct, -⟩ := hqmem w hmem
                    rw [hget] at hc
                    rw [← Option.some_inj.mp hc, htask] at hct
                    cases hct
                  refine ⟨by rw [List.length_set]; exact hlen, ⟨?_, ?_⟩, ?_, ?_, ?_⟩
                  · intro x hx
                    obtain ⟨c, hc, hct, hca⟩ := hqmem x hx
                    have hxne : x ≠ w := fun hh => hwq (hh ▸ hx)
                    exact ⟨c, by rw [List.getElem?_set_ne (Ne.symm hxne)]; exact hc, hct, hca⟩
                  · exact hqnodup
                  · intro i c hi hf
                    rcases getElem?_set_cases hi with ⟨hiw, rfl⟩ | ⟨hiw, hi2⟩
                    · have h0 := hann w ctx hget hf
                      rw [htask] at h0
                      cases h0
                    · exact hann i c hi2 hf
                  · refine busyMutexOn_set _ _ _ ctx _ hds hget (Or.inr ?_)
                    intro m hb hm
                    have hm2 : m ∈ (lock_iterator ctx.snap name).locked_datasets := hm
                    rw [locked_datasets_lock_iterator] at hm2
                    exact Or.inl ⟨by rw [htask]; rfl, hm2⟩
                  · refine busyMutexOn_set _ _ _ ctx _ hit hget (Or.inr ?_)
                    intro m hb hm
                    have hm2 : m ∈ (lock_iterator ctx.snap name).locked_iterators := hm
                    rcases (mem_lock_iterator ctx.snap name m).mp hm2 with hold | hnew
                    · exact Or.inl ⟨by rw [htask]; rfl, hold⟩
                    · subst hnew
                      exact Or.inr (fun j cj hj hjw hbj =>
                        iterator_check_false_spec hal j cj hj hbj)
  | frontendReq ca req =>
      simp only [coord_step] at hstep
      cases hq : st.worker_queue with
      | nil => simp [hq] at hstep
      | cons w rest =>
          cases hget : st.wctxs[w]? with
          | none => simp [hq, hget] at hstep
          | some ctx =>
              simp only [hq, hget, Option.some_inj] at hstep
              rw [Prod.mk.injEq] at hstep
              obtain ⟨h1, h2⟩ := hstep
              subst h1
              have hw : w < st.wctxs.length := (List.getElem?_eq_some.mp hget).1
              obtain ⟨c0, hc0, hct0, hca0⟩ := hqmem w
                (by rw [hq]; exact List.mem_cons_self w rest)
              rw [hget] at hc0
              have hc0e : ctx = c0 := Option.some_inj.mp hc0
              have hcann : ctx.announced = true := by rw [hc0e]; exact hca0
              have hnodup2 : (w :: rest).Nodup := by rw [← hq]; exact hqnodup
              have hwrest : w ∉ rest := (List.nodup_cons.mp hnodup2).1
              have hrestnodup : rest.Nodup := (List.nodup_cons.mp hnodup2).2
              refine ⟨by rw [List.length_set]; exact hlen, ⟨?_, ?_⟩, ?_, ?_, ?_⟩
              · intro x hx
                obtain ⟨c, hc, hct, hca⟩ := hqmem x
                  (by rw [hq]; exact List.mem_cons_of_mem w hx)
                have hxne : x ≠ w := fun hh => hwrest (hh ▸ hx)
                exact ⟨c, by rw [List.getElem?_set_ne (Ne.symm hxne)]; exact hc, hct, hca⟩
              · exact hrestnodup
              · intro i c hi hf
                rcases getElem?_set_cases hi with ⟨hiw, rfl⟩ | ⟨hiw, hi2⟩
                · have hf2 : ctx.announced = false := hf
                  rw [hcann] at hf2
                  cases hf2
                · exact hann i c hi2 hf
              · refine busyMutexOn_set _ _ _ ctx _ hds hget (Or.inr ?_)
                intro m hb hm
                exact absurd hm (List.not_mem_nil m)
              · refine busyMutexOn_set _ _ _ ctx _ hit hget (Or.inr ?_)
                intro m hb hm
                exact absurd hm (List.not_mem_nil m)

end Ursa

namespace Ursa

/-- Elements of a replicated list are all the replicated value. -/
theorem getElem?_replicate_eq_of {α : Type} {k i : Nat} {x c : α}
    (h : (List.replicate k x)[i]? = some c) : c = x := by
  induction k generalizing i with
  | zero => simp at h
  | succ m ih =>
      cases i with
      | zero =>
          rw [List.replicate_succ] at h
          simp at h
          exact h.symm
      | succ j =>
          rw [List.replicate_succ] at h
          simp at h
          exact ih h

/-- The initial coordinator state satisfies the invariant. -/
theorem initState_inv (n : Nat) : CoordInv n (initState n) := by
  refine ⟨by simp [initState], ⟨?_, ?_⟩, ?_, ?_, ?_⟩
  · intro w hw
    exact absurd hw (List.not_mem_nil w)
  · exact List.nodup_nil
  · intro i c hi hf
    rw [getElem?_replicate_eq_of hi]
  · intro i j ci cj m hi hj hij hbi hbj hni hnj
    rw [getElem?_replicate_eq_of hi] at hbi
    cases hbi
  · intro i j ci cj m hi hj hij hbi hbj hni hnj
    rw [getElem?_replicate_eq_of hi] at hbi
    cases hbi

/-- Every reachable coordinator state satisfies the invariant. -/
theorem reachable_inv {n : Nat} {st : CoordState} (h : Reachable n st) :
    CoordInv n st := by
  induction h with
  | init => exact initState_inv n
  | step hprev hstep ih => exact coord_step_inv ih hstep

/-! ## Claims C2, C8 and C9: the coordinator loop -/

/-- C2 (amended): in every reachable state, at most one snapshot of a
worker with a non-null task holds a DatasetLock on a given dataset id,
and likewise for IteratorLocks. The claim's stronger form, over all
snapshots including those of workers whose task has become null, is
false on the code (see the counterexample): a committed worker's
snapshot keeps its lock record until the worker is redispatched. -/
theorem claim_C2_busy_lock_mutex {n : Nat} {st : CoordState} (h : Reachable n st) :
    BusyMutexOn (fun s => s.locked_datasets) st.wctxs ∧
    BusyMutexOn (fun s => s.locked_iterators) st.wctxs := by
  obtain ⟨-, -, -, hds, hit⟩ := reachable_inv h
  exact ⟨hds, hit⟩

/-- C2 witness: busy-worker mutual exclusion at the initial one-worker
state. -/
theorem claim_C2_busy_lock_mutex_witness :
    BusyMutexOn (fun s => s.locked_datasets) (initState 1).wctxs ∧
    BusyMutexOn (fun s => s.locked_iterators) (initState 1).wctxs :=
  claim_C2_busy_lock_mutex (Reachable.init : Reachable 1 (initState 1))

/-- C2 counterexample: `c2state` is reachable (worker 0 locks "ds1",
commits its task, then worker 1 is dispatched and is granted the same
lock), yet the snapshot of worker 0 — whose task is null — and the
snapshot of the busy worker 1 both hold a DatasetLock on "ds1". So the
invariant as claimed over all snapshots, including those of workers
whose task has become null, is false on the code. -/
theorem claim_C2_counterexample :
    Reachable 2 c2state ∧
    c2state.wctxs[0]? = some (WorkerCtx.mk true none (SnapLocks.mk ["ds1", ""] [])) ∧
    c2state.wctxs[1]? = some (WorkerCtx.mk true (some 1) (SnapLocks.mk ["ds1", ""] [])) ∧
    is_dataset_locked (SnapLocks.mk ["ds1", ""] []) "ds1" = true := by
  refine ⟨?_, by decide, by decide, by decide⟩
  have h0 : Reachable 2 (initState 2) := Reachable.init
  have e1 : coord_step (initState 2) (NetEvent.ready 0) =
      some (CoordState.mk
        [WorkerCtx.mk true none (SnapLocks.mk [] []),
         WorkerCtx.mk false none (SnapLocks.mk [] [])] [0] 0, []) := by decide
  have h1 := Reachable.step h0 e1
  have e2 : coord_step (CoordState.mk
        [WorkerCtx.mk true none (SnapLocks.mk [] []),
         WorkerCtx.mk false none (SnapLocks.mk [] [])] [0] 0) (NetEvent.ready 1) =
      some (CoordState.mk
        [WorkerCtx.mk true none (SnapLocks.mk [] []),
         WorkerCtx.mk true none (SnapLocks.mk [] [])] [0, 1] 0, []) := by decide
  have h2 := Reachable.step h1 e2
  have e3 : coord_step (CoordState.mk
        [WorkerCtx.mk true none (SnapLocks.mk [] []),
         WorkerCtx.mk true none (SnapLocks.mk [] [])] [0, 1] 0)
      (NetEvent.frontendReq "cA" "r1") =
      some (CoordState.mk
        [WorkerCtx.mk true (some 0) (SnapLocks.mk [] []),
         WorkerCtx.mk true none (SnapLocks.mk [] [])] [1] 1,
        [NetOutput.dispatchTo 0 "cA" "r1"]) := by decide
  have h3 := Reachable.step h2 e3
  have e4 : coord_step (CoordState.mk
        [WorkerCtx.mk true (some 0) (SnapLocks.mk [] []),
         WorkerCtx.mk true none (SnapLocks.mk [] [])] [1] 1)
      (NetEvent.datasetLockReq 0 ["ds1", ""]) =
      some (CoordState.mk
        [WorkerCtx.mk true (some 0) (SnapLocks.mk ["ds1", ""] []),
         WorkerCtx.mk true none (SnapLocks.mk [] [])] [1] 1,
        [NetOutput.lockResp 0 NetLockResp.LockOk]) := by decide
  have h4 := Reachable.step h3 e4
  have e5 : coord_step (CoordState.mk
        [WorkerCtx.mk true (some 0) (SnapLocks.mk ["ds1", ""] []),
         WorkerCtx.mk true none (SnapLocks.mk [] [])] [1] 1)
      (NetEvent.response 0 "cA" "ok") =
      some (CoordState.mk
        [WorkerCtx.mk true none (SnapLocks.mk ["ds1", ""] []),
         WorkerCtx.mk true none (SnapLocks.mk [] [])] [1, 0] 1,
        [NetOutput.toClient "cA" "ok", NetOutput.gcCall []]) := by decide
  have h5 := Reachable.step h4 e5
  have e6 : coord_step (CoordState.mk
        [WorkerCtx.mk true none (SnapLocks.mk ["ds1", ""] []),
         WorkerCtx.mk true none (SnapLocks.mk [] [])] [1, 0] 1)
      (NetEvent.frontendReq "cB" "r2") =
      some (CoordState.mk
        [WorkerCtx.mk true none (SnapLocks.mk ["ds1", ""] []),
         WorkerCtx.mk true (some 1) (SnapLocks.mk [] [])] [0] 2,
        [NetOutput.dispatchTo 1 "cB" "r2"]) := by decide
  have h6 := Reachable.step h5 e6
  have e7 : coord_step (CoordState.mk
        [WorkerCtx.mk true none (SnapLocks.mk ["ds1", ""] []),
         WorkerCtx.mk true (some 1) (SnapLocks.mk [] [])] [0] 2)
      (NetEvent.datasetLockReq 1 ["ds1", ""]) =
      some (c2state, [NetOutput.lockResp 1 NetLockResp.LockOk]) := by decide
  exact Reachable.step h6 e7

end Ursa

namespace Ursa

/-- C8: on a backend Response event from a busy worker, the coordinator
forwards the reply to the named client, commits the worker's task (the
worker's task becomes null and every other worker is untouched), pushes
the worker onto the ready queue, and then calls `collect_garbage` with
exactly the snapshots of the workers that still have a non-null task —
the just-committed worker's snapshot excluded. -/
theorem claim_C8_response_commit (st : CoordState) (w : Nat) (ctx : WorkerCtx)
    (tid : Nat) (ca reply : String) (h : st.wctxs[w]? = some ctx)
    (ht : ctx.task = some tid) :
    ∃ st2,
      coord_step st (NetEvent.response w ca reply) = some (st2,
        [NetOutput.toClient ca reply,
         NetOutput.gcCall ((st2.wctxs.filter (fun c => c.task.isSome)).map
           (fun c => c.snap))]) ∧
      st2.worker_queue = st.worker_queue ++ [w] ∧
      st2.wctxs[w]? = some { ctx with task := none } ∧
      (∀ i, i ≠ w → st2.wctxs[i]? = st.wctxs[i]?) ∧
      (∀ s, s ∈ (st2.wctxs.filter (fun c => c.task.isSome)).map (fun c => c.snap) ↔
        ∃ (i : Nat) (c : WorkerCtx), i ≠ w ∧ st.wctxs[i]? = some c ∧
          c.task.isSome = true ∧ c.snap = s) := by
  have hw : w < st.wctxs.length := (List.getElem?_eq_some.mp h).1
  refine ⟨{ st with worker_queue := st.worker_queue ++ [w], wctxs := st.wctxs.set w ({ ctx with task := none }) }, ?_, rfl, ?_, ?_, ?_⟩
  · simp only [coord_step, h, ht, handle_response]
  · exact List.getElem?_set_self hw
  · intro i hi
    exact List.getElem?_set_ne (Ne.symm hi)
  · intro s
    constructor
    · intro hs
      obtain ⟨c, hcmem, hsnap⟩ := List.mem_map.mp hs
      obtain ⟨hcl, hbusy⟩ := List.mem_filter.mp hcmem
      obtain ⟨i, hi⟩ := List.mem_iff_getElem?.mp hcl
      rcases getElem?_set_cases hi with ⟨hiw, rfl⟩ | ⟨hiw, hi2⟩
      · simp at hbusy
      · exact ⟨i, c, hiw, hi2, hbusy, hsnap⟩
    · rintro ⟨i, c, hiw, hi, hb, hsnap⟩
      refine List.mem_map.mpr ⟨c, List.mem_filter.mpr ⟨?_, hb⟩, hsnap⟩
      refine List.mem_iff_getElem?.mpr ⟨i, ?_⟩
      rw [List.getElem?_set_ne (Ne.symm hiw)]
      exact hi

/-- C8 witness: the response step at the one-busy-worker state
`c8state` succeeds and queues worker 0. -/
theorem claim_C8_response_commit_witness :
    ∃ st2 outs, coord_step c8state (NetEvent.response 0 "client" "ok") =
      some (st2, outs) ∧ st2.worker_queue = [0] := by
  obtain ⟨st2, hstep, hq, -, -, -⟩ :=
    claim_C8_response_commit c8state 0 c8ctx 0 "client" "ok" rfl rfl
  exact ⟨st2, _, hstep, by rw [hq]; rfl⟩

/-- C9: in every reachable state, the number of busy workers — one per
in-flight request — is at most the pool size; a frontend request is
processed only when the idle-worker queue is non-empty (otherwise the
frontend is not polled); and when every worker is busy the frontend
event is not processed at all, so the next request stays unread until
some worker returns to the queue. -/
theorem claim_C9_admission {n : Nat} {st : CoordState} (h : Reachable n st) :
    st.wctxs.countP (fun c => c.task.isSome) ≤ n ∧
    (∀ ca req res, coord_step st (NetEvent.frontendReq ca req) = some res →
      st.worker_queue ≠ []) ∧
    ((∀ (i : Nat) (c : WorkerCtx), st.wctxs[i]? = some c → c.task.isSome = true) →
      ∀ ca req, coord_step st (NetEvent.frontendReq ca req) = none) := by
  obtain ⟨hlen, ⟨hqmem, -⟩, -, -, -⟩ := reachable_inv h
  refine ⟨?_, ?_, ?_⟩
  · calc st.wctxs.countP (fun c => c.task.isSome) ≤ st.wctxs.length :=
        List.countP_le_length _
      _ = n := hlen
  · intro ca req res hs hq
    simp [coord_step, hq] at hs
  · intro hbusy ca req
    cases hq : st.worker_queue with
    | nil => simp [coord_step, hq]
    | cons w rest =>
        obtain ⟨c, hc, hct, -⟩ := hqmem w (by rw [hq]; exact List.mem_cons_self w rest)
        have hb := hbusy w c hc
        rw [hct] at hb
        cases hb

/-- C9 witness: the busy-worker bound at the initial two-worker state. -/
theorem claim_C9_admission_witness :
    (initState 2).wctxs.countP (fun c => c.task.isSome) ≤ 2 :=
  (claim_C9_admission (Reachable.init : Reachable 2 (initState 2))).1

end Ursa
